import Mathlib

/-!
Shallow embedding of the artifact-registry manager in `src/dvc/repo/artifacts.py`.

The Python module validates artifact names against an anchored regular
expression, guards against nested DVC repositories when choosing a manifest
file, reads all artifact declarations from the project index, and upserts one
artifact declaration into a manifest file.

Pure pieces (the regular-expression check, the ancestor walk, the document
merge) are translated into executable Lean functions.  Stateful pieces (the
filesystem, the project index, the version-control staging list) are modelled
by an explicit `RepoState` record threaded through `Artifacts.add` and
`Artifacts.read`.  Collaborators that are not part of the provided source
(the `Artifact` schema, the default manifest filename, the relative-path
helper, the YAML transaction) are modelled from the specification and marked
as such in their doc comments.
-/

/-- Python exception kinds that the translated code can raise. -/
inductive PyErr where
  | invalidArgument : String → PyErr
  | valueError : String → PyErr
  | typeError : PyErr
  | attributeError : PyErr
deriving DecidableEq

/-- Character class of lowercase letters and digits: the first and the last
character of the `NAME` pattern. -/
def isNameChar (c : Char) : Bool :=
  (decide ('a' ≤ c) && decide (c ≤ 'z')) || (decide ('0' ≤ c) && decide (c ≤ '9'))

/-- Interior character class of the `NAME` pattern: lowercase letters, digits,
hyphen and slash. -/
def isNameInnerChar (c : Char) : Bool :=
  isNameChar c || c == '-' || c == '/'

/-- Full anchored match of the `NAME` pattern against a character list: a
single character in the base class, or a base-class character, then
interior-class characters under a star, then a base-class character. -/
def matchesNAME : List Char → Bool
  | [] => false
  | [c] => isNameChar c
  | c :: rest =>
      isNameChar c && rest.dropLast.all isNameInnerChar &&
        (match rest.getLast? with
          | some d => isNameChar d
          | none => false)

/-- `name_is_compatible(name) = bool(NAME_RE.search(name))` where
`NAME_RE = re.compile("^" + NAME + "$")`.  Python's `$` anchor also matches
just before a newline that ends the string, so a single trailing newline is
tolerated by the host regex engine. -/
def name_is_compatible (name : String) : Bool :=
  matchesNAME name.data ||
    (match name.data.getLast? with
      | some c => (c == Char.ofNat 10) && matchesNAME name.data.dropLast
      | none => false)

/-- The `wrong_name_message` template applied to a name (apostrophes and the
percent placeholder of the Python template are elided). -/
def wrong_name_message (name : String) : String :=
  "Cant use " ++ name ++
    " as artifact name (ID). You can use letters and numbers, and use - as separator (but not at the start or end)."

/-- `check_name_format` logs a warning when the name is not compatible and
never fails; modelled as returning the list of warnings it emits. -/
def check_name_format (name : String) : List String :=
  if name_is_compatible name then [] else [wrong_name_message name]

/-- A `pathlib.Path`: an absolute-anchor flag plus the non-anchor components.
Real paths produced by `Path(...)` never contain an empty component. -/
structure PyPath where
  absolute : Bool
  parts : List String
deriving DecidableEq

/-- Decides whether the first list is an initial segment of the second
(`PurePath.relative_to` succeeds exactly when the root components lead the
path components). -/
def startsOf : List String → List String → Bool
  | [], _ => true
  | _ :: _, [] => false
  | a :: q, b :: l => a == b && startsOf q l

/-- Message of the `ValueError` raised by `PurePath.relative_to`. -/
def relative_to_message : String :=
  "path is not in the subpath of the other path"

/-- `PurePath.relative_to`: strips `other` from the front of `p`, raising
`ValueError` when `p` is not inside `other`. -/
def PyPath.relative_to (p other : PyPath) : Except PyErr PyPath :=
  if (p.absolute == other.absolute) && startsOf other.parts p.parts then
    .ok ⟨false, p.parts.drop other.parts.length⟩
  else
    .error (.valueError relative_to_message)

/-- Serialized form of an artifact (`Artifact.to_dict()`), a string-keyed
dictionary of scalar fields. -/
abbrev ArtDict := List (String × String)

/-- Modelled from the spec: `dvc.annotations.Artifact` is not part of the
provided source; the spec treats it as an opaque structured record with a
`to_dict`-like serialization capability. -/
structure Artifact where
  fields : List (String × String)
deriving DecidableEq

/-- Modelled from the spec: the serialization capability of an artifact. -/
def Artifact.to_dict (a : Artifact) : ArtDict := a.fields

/-- Modelled from the spec: a raw structured value from the project index
(the unparsed form of an Artifact); `schemaOk` records whether the value
deserializes into an `Artifact` record (construction failures of individual
records are a hard error during read). -/
structure RawValue where
  fields : List (String × String)
  schemaOk : Bool
deriving DecidableEq

/-- Modelled from the spec: `Artifact(**value)` either builds the record or
raises, depending on whether the raw value matches the schema. -/
def Artifact.fromRaw (v : RawValue) : Option Artifact :=
  if v.schemaOk then some ⟨v.fields⟩ else none

/-- A value of the manifest YAML document: either an unrelated scalar node or
the `artifacts` mapping of serialized artifact entries. -/
inductive YamlVal where
  | str : String → YamlVal
  | amap : List (String × ArtDict) → YamlVal
deriving DecidableEq

/-- The manifest YAML document: an order-preserving string-keyed mapping. -/
abbrev YamlDoc := List (String × YamlVal)

/-- First-match association-list lookup (Python dictionary read). -/
def alookup {α β : Type} [DecidableEq α] : List (α × β) → α → Option β
  | [], _ => none
  | (k0, v) :: rest, k => if k0 = k then some v else alookup rest k

/-- Python dictionary write: replace the value at an existing key in place,
otherwise append the new binding at the end. -/
def dictUpdate {α β : Type} [DecidableEq α] : List (α × β) → α → β → List (α × β)
  | [], k, v => [(k, v)]
  | (k0, v0) :: rest, k, v =>
      if k0 = k then (k, v) :: rest else (k0, v0) :: dictUpdate rest k v

/-- Modelled from the spec: the canonical top-level manifest filename
(`dvc.dvcfile.PROJECT_FILE` is not part of the provided source). -/
def PROJECT_FILE : PyPath := ⟨false, ["dvc.yaml"]⟩

/-- The state of one project instance: the project root components, the set of
directories for which `(path / Repo.DVC_DIR).is_dir()` holds, the filesystem
content of manifest files, the read-only project index, and the files handed
to the version-control staging collaborator. -/
structure RepoState where
  root_parts : List String
  dvcRepoDirs : List (List String)
  files : List (PyPath × YamlDoc)
  index : List (PyPath × List (String × RawValue))
  tracked : List (Option PyPath)
deriving DecidableEq

/-- `(path / Repo.DVC_DIR).is_dir()` for a relative directory `d`. -/
def isDvcRepoDir (st : RepoState) (d : List String) : Bool :=
  st.dvcRepoDirs.contains d

/-- Error message of the nested-repository rejection. -/
def nested_message (ps : List String) : String :=
  "Nested DVC repos like " ++ String.intercalate "/" ps ++ " are not supported."

/-- The `while path.name:` loop of `check_for_nested_dvc_repo`, acting on the
component list of the current ancestor: stop successfully at an empty name,
raise at the first ancestor containing the project-control subdirectory,
otherwise step to the parent.  The `fuel` argument only bounds the number of
iterations so that the recursion is structural; each step removes one
component, so `ps.length` fuel is always enough. -/
def nestedWalkAux (st : RepoState) : Nat → List String → Except PyErr Unit
  | 0, _ => .ok ()
  | n + 1, ps =>
      if ps.getLast?.getD "" = "" then .ok ()
      else if isDvcRepoDir st ps then .error (.invalidArgument (nested_message ps))
      else nestedWalkAux st n ps.dropLast

/-- The `while path.name:` loop, started with enough fuel. -/
def nestedWalk (st : RepoState) (ps : List String) : Except PyErr Unit :=
  nestedWalkAux st ps.length ps

/-- `check_for_nested_dvc_repo(dvcfile)`: reject absolute paths, then walk
from the manifest's parent directory upward. -/
def check_for_nested_dvc_repo (st : RepoState) (dvcfile : PyPath) : Except PyErr Unit :=
  if dvcfile.absolute then .error (.invalidArgument "Use relative path to dvc.yaml.")
  else nestedWalk st dvcfile.parts.dropLast

/-- The body of the `modify_yaml` transaction in `Artifacts.add`:
`artifacts = data.setdefault("artifacts", {}); artifacts.update(...)`.
Returns the updated document together with the updated inner mapping, or
`none` when the existing `artifacts` node is not a mapping (Python would
raise `AttributeError` on `.update`). -/
def addToDoc (doc : YamlDoc) (name : String) (d : ArtDict) :
    Option (YamlDoc × List (String × ArtDict)) :=
  match alookup doc "artifacts" with
  | none =>
      let m := dictUpdate ([] : List (String × ArtDict)) name d
      some (doc ++ [("artifacts", .amap m)], m)
  | some (.amap m0) =>
      let m := dictUpdate m0 name d
      some (dictUpdate doc "artifacts" (.amap m), m)
  | some (.str _) => none

/-- `Artifacts.add(name, artifact, dvcfile)`.  The returned state records the
side effects performed before the method returned or raised: the quiet
version-control scope itself has no filesystem effect, the name check and the
nested-repository guard run before the `modify_yaml` transaction, the
transaction commits the updated document, and `track_file` is then handed the
original `dvcfile` argument.  The second component is the Python return value
`artifacts.get(name)`. -/
def Artifacts.add (st : RepoState) (name : String) (artifact : Artifact)
    (dvcfile : Option PyPath) : RepoState × Except PyErr (Option ArtDict) :=
  if name_is_compatible name then
    match (if (dvcfile.getD PROJECT_FILE).absolute then
             (dvcfile.getD PROJECT_FILE).relative_to ⟨true, st.root_parts⟩
           else .ok (dvcfile.getD PROJECT_FILE)) with
    | .error e => (st, .error e)
    | .ok rel =>
      match check_for_nested_dvc_repo st rel with
      | .error e => (st, .error e)
      | .ok _ =>
        match addToDoc ((alookup st.files (dvcfile.getD PROJECT_FILE)).getD [])
            name artifact.to_dict with
        | none => (st, .error .attributeError)
        | some (doc2, m) =>
            ({ st with
                files := dictUpdate st.files (dvcfile.getD PROJECT_FILE) doc2,
                tracked := st.tracked ++ [dvcfile] },
             .ok (alookup m name))
  else (st, .error (.invalidArgument (wrong_name_message name)))

/-- Modelled from the spec: `dvc.utils.relpath` is not part of the provided
source; the spec only requires converting a manifest path to a path relative
to the project root, which is total on paths under the root. -/
def relpath (p : PyPath) (root : List String) : String :=
  if startsOf root p.parts then String.intercalate "/" (p.parts.drop root.length)
  else String.intercalate "/" p.parts

/-- The value of a `read`: manifest path → artifact name → artifact record. -/
abbrev Registry := List (String × List (String × Artifact))

/-- Inner loop of `Artifacts.read` over one raw artifact block: emit a name
warning (non-fatal), then deserialize the raw value, aborting the whole read
on a construction failure. -/
def readInnerLoop (ws : List String) (acc : List (String × Artifact)) :
    List (String × RawValue) → Except PyErr (List String × List (String × Artifact))
  | [] => .ok (ws, acc)
  | (n, v) :: rest =>
      match Artifact.fromRaw v with
      | none => .error .typeError
      | some a => readInnerLoop (ws ++ check_name_format n) (dictUpdate acc n a) rest

/-- Outer loop of `Artifacts.read` over the project index: register the
manifest under its root-relative path with a fresh inner mapping, then fill
the inner mapping from the raw block. -/
def readLoop (st : RepoState) (ws : List String) (acc : Registry) :
    List (PyPath × List (String × RawValue)) → Except PyErr (List String × Registry)
  | [] => .ok (ws, acc)
  | (f, blk) :: rest =>
      match readInnerLoop [] [] blk with
      | .error e => .error e
      | .ok (ws2, inner) =>
          readLoop st (ws ++ ws2) (dictUpdate acc (relpath f st.root_parts) inner) rest

/-- `Artifacts.read()`: fold the project index into a fresh Registry,
collecting the name-format warnings emitted along the way. -/
def Artifacts.read (st : RepoState) : Except PyErr (List String × Registry) :=
  readLoop st [] [] st.index


/-! ### Association-list lemmas -/

theorem alookup_dictUpdate_self {α β : Type} [DecidableEq α]
    (l : List (α × β)) (k : α) (v : β) :
    alookup (dictUpdate l k v) k = some v := by
  induction l with
  | nil => simp [dictUpdate, alookup]
  | cons p rest ih =>
      obtain ⟨k0, v0⟩ := p
      by_cases h : k0 = k <;> simp [dictUpdate, alookup, h, ih]

theorem alookup_dictUpdate_ne {α β : Type} [DecidableEq α]
    (l : List (α × β)) (k k2 : α) (v : β) (hne : k2 ≠ k) :
    alookup (dictUpdate l k v) k2 = alookup l k2 := by
  have hne2 : k ≠ k2 := Ne.symm hne
  induction l with
  | nil => simp [dictUpdate, alookup, hne2]
  | cons p rest ih =>
      obtain ⟨k0, v0⟩ := p
      by_cases h : k0 = k
      · subst h
        simp [dictUpdate, alookup, hne2]
      · simp [dictUpdate, alookup, h, ih]

theorem dictUpdate_of_alookup_none {α β : Type} [DecidableEq α]
    (l : List (α × β)) (k : α) (v : β) (h : alookup l k = none) :
    dictUpdate l k v = l ++ [(k, v)] := by
  induction l with
  | nil => simp [dictUpdate]
  | cons p rest ih =>
      obtain ⟨k0, v0⟩ := p
      by_cases hk : k0 = k
      · simp [alookup, hk] at h
      · simp [alookup, hk] at h
        simp [dictUpdate, hk, ih h]

theorem alookup_eq_none_of_not_mem {α β : Type} [DecidableEq α]
    (l : List (α × β)) (k : α) (h : k ∉ l.map Prod.fst) :
    alookup l k = none := by
  induction l with
  | nil => rfl
  | cons p rest ih =>
      obtain ⟨k0, v0⟩ := p
      simp only [List.map_cons, List.mem_cons, not_or] at h
      have hne : k0 ≠ k := Ne.symm h.1
      simp [alookup, hne, ih h.2]

theorem alookup_append_of_some {α β : Type} [DecidableEq α]
    (l1 l2 : List (α × β)) (k : α) (v : β) (h : alookup l1 k = some v) :
    alookup (l1 ++ l2) k = some v := by
  induction l1 with
  | nil => simp [alookup] at h
  | cons p rest ih =>
      obtain ⟨k0, v0⟩ := p
      by_cases hk : k0 = k
      · simp [alookup, hk] at h ⊢
        exact h
      · simp [alookup, hk] at h ⊢
        exact ih h

theorem alookup_append_of_none {α β : Type} [DecidableEq α]
    (l1 l2 : List (α × β)) (k : α) (h : alookup l1 k = none) :
    alookup (l1 ++ l2) k = alookup l2 k := by
  induction l1 with
  | nil => rfl
  | cons p rest ih =>
      obtain ⟨k0, v0⟩ := p
      by_cases hk : k0 = k
      · simp [alookup, hk] at h
      · simp [alookup, hk] at h ⊢
        exact ih h

theorem alookup_concat_ne {α β : Type} [DecidableEq α]
    (l : List (α × β)) (k0 k : α) (v : β) (hne : k ≠ k0) :
    alookup (l ++ [(k0, v)]) k = alookup l k := by
  cases h : alookup l k with
  | some w => exact alookup_append_of_some l _ k w h
  | none =>
      rw [alookup_append_of_none l _ k h]
      have hne2 : k0 ≠ k := Ne.symm hne
      simp [alookup, hne2, h]

theorem map_fst_dictUpdate_of_none {α β : Type} [DecidableEq α]
    (l : List (α × β)) (k : α) (v : β) (h : alookup l k = none) :
    (dictUpdate l k v).map Prod.fst = l.map Prod.fst ++ [k] := by
  rw [dictUpdate_of_alookup_none l k v h]
  simp

/-! ### Initial-segment lemmas for `startsOf` -/

theorem startsOf_self (l : List String) : startsOf l l = true := by
  induction l with
  | nil => rfl
  | cons a rest ih => simp [startsOf, ih]

theorem startsOf_nil_right (q : List String) :
    startsOf q [] = true ↔ q = [] := by
  cases q <;> simp [startsOf]

theorem startsOf_concat (q l : List String) (a : String) :
    startsOf q (l ++ [a]) = true ↔ (startsOf q l = true ∨ q = l ++ [a]) := by
  induction q generalizing l with
  | nil => simp [startsOf]
  | cons x q ih =>
      cases l with
      | nil =>
          simp only [List.nil_append, startsOf, Bool.and_eq_true, beq_iff_eq,
            startsOf_nil_right, List.cons.injEq]
          cases q <;> simp [startsOf]
      | cons y l =>
          by_cases hxy : x = y
          · subst hxy
            simp only [List.cons_append, startsOf, List.append_eq, beq_self_eq_true,
              Bool.true_and, List.cons.injEq, true_and]
            exact ih l
          · simp [startsOf, hxy]

/-! ### Lemmas about the nested-repository walk -/

theorem nestedWalk_unfold (st : RepoState) (ps : List String) :
    nestedWalk st ps =
      if ps.getLast?.getD "" = "" then .ok ()
      else if isDvcRepoDir st ps then .error (.invalidArgument (nested_message ps))
      else nestedWalk st ps.dropLast := by
  cases ps with
  | nil => rfl
  | cons a l =>
      have hlen : (a :: l).dropLast.length = l.length := by simp
      show nestedWalkAux st (l.length + 1) (a :: l) = _
      rw [nestedWalkAux, nestedWalk, hlen]

theorem nestedWalk_of_err (st : RepoState) (ps : List String) (e : PyErr)
    (h : nestedWalk st ps = .error e) :
    (∃ m, e = .invalidArgument m) ∧
      ∃ q, q ≠ [] ∧ startsOf q ps = true ∧ isDvcRepoDir st q = true := by
  induction ps using List.reverseRecOn with
  | nil => rw [nestedWalk_unfold] at h; simp at h
  | append_singleton l a ih =>
      rw [nestedWalk_unfold, List.getLast?_concat] at h
      by_cases ha : a = ""
      · simp [ha] at h
      · rw [if_neg (by simpa using ha)] at h
        by_cases hd : isDvcRepoDir st (l ++ [a])
        · rw [if_pos hd] at h
          refine ⟨⟨nested_message (l ++ [a]), by simpa using h.symm⟩,
            l ++ [a], by simp, startsOf_self _, hd⟩
        · rw [if_neg hd, List.dropLast_concat] at h
          obtain ⟨hm, q, hq, hs, hdir⟩ := ih h
          exact ⟨hm, q, hq, (startsOf_concat q l a).mpr (Or.inl hs), hdir⟩

theorem nestedWalk_err_of_dir (st : RepoState) (ps : List String)
    (hclean : "" ∉ ps)
    (hex : ∃ q, q ≠ [] ∧ startsOf q ps = true ∧ isDvcRepoDir st q = true) :
    ∃ m, nestedWalk st ps = .error (.invalidArgument m) := by
  induction ps using List.reverseRecOn with
  | nil =>
      obtain ⟨q, hq, hs, _⟩ := hex
      rw [startsOf_nil_right] at hs
      exact absurd hs hq
  | append_singleton l a ih =>
      have ha : a ≠ "" := by
        intro hcon
        exact hclean (by simp [hcon])
      have hcleanl : "" ∉ l := fun hc => hclean (by simp [hc])
      rw [nestedWalk_unfold, List.getLast?_concat]
      rw [if_neg (by simpa using ha)]
      by_cases hd : isDvcRepoDir st (l ++ [a])
      · exact ⟨nested_message (l ++ [a]), by rw [if_pos hd]⟩
      · rw [if_neg hd, List.dropLast_concat]
        obtain ⟨q, hq, hs, hdir⟩ := hex
        rcases (startsOf_concat q l a).mp hs with hsl | hql
        · exact ih hcleanl ⟨q, hq, hsl, hdir⟩
        · subst hql
          exact absurd hdir (by simp [hd])

theorem nestedWalk_ok_or_err (st : RepoState) (ps : List String) :
    nestedWalk st ps = .ok () ∨ ∃ e, nestedWalk st ps = .error e := by
  cases h : nestedWalk st ps with
  | ok u => cases u; exact Or.inl rfl
  | error e => exact Or.inr ⟨e, rfl⟩

/-! ### Lemmas about the name grammar -/

theorem isNameInnerChar_of_isNameChar (c : Char) (h : isNameChar c = true) :
    isNameInnerChar c = true := by
  simp [isNameInnerChar, h]

/-- Declarative reading of a full `NAME` match: the list is non-empty, its
first and last characters are in the base class, and every character is in
the interior class. -/
def nameCoreCheck (l : List Char) : Bool :=
  !l.isEmpty &&
    (match l.head?, l.getLast? with
      | some a, some b => isNameChar a && isNameChar b
      | _, _ => false) &&
    l.all isNameInnerChar

theorem matchesNAME_eq_core (l : List Char) : matchesNAME l = nameCoreCheck l := by
  match l with
  | [] => rfl
  | [c] =>
      cases hc : isNameChar c <;>
        simp [matchesNAME, nameCoreCheck, hc, isNameInnerChar_of_isNameChar, isNameInnerChar]
  | c :: d :: rest =>
      have ht : d :: rest ≠ [] := by simp
      have hlast : (d :: rest).getLast? = some ((d :: rest).getLast ht) :=
        List.getLast?_eq_getLast _ ht
      have hdec : (d :: rest).dropLast ++ [(d :: rest).getLast ht] = d :: rest :=
        List.dropLast_concat_getLast ht
      have hall : (d :: rest).all isNameInnerChar =
          ((d :: rest).dropLast.all isNameInnerChar && isNameInnerChar ((d :: rest).getLast ht)) := by
        conv_lhs => rw [← hdec]
        simp
      cases hc : isNameChar c <;> cases hg : isNameChar ((d :: rest).getLast ht) <;>
        cases hrest : (d :: rest).dropLast.all isNameInnerChar <;>
          simp [matchesNAME, nameCoreCheck, hlast, hall, hc, hg, hrest,
            isNameInnerChar_of_isNameChar]

theorem matchesNAME_all_inner (l : List Char) (h : matchesNAME l = true) :
    ∀ c ∈ l, isNameInnerChar c = true := by
  rw [matchesNAME_eq_core] at h
  simp only [nameCoreCheck, Bool.and_eq_true] at h
  rw [List.all_eq_true] at h
  exact fun c hc => h.2 c hc

theorem matchesNAME_false_of_mem (l : List Char) (c : Char) (hc : c ∈ l)
    (hbad : isNameInnerChar c = false) : matchesNAME l = false := by
  cases hm : matchesNAME l with
  | false => rfl
  | true => exact absurd (matchesNAME_all_inner l hm c hc) (by simp [hbad])

theorem name_is_compatible_false_of_mem (s : String) (c : Char) (hc : c ∈ s.data)
    (hbad : isNameInnerChar c = false) (hnl : c ≠ Char.ofNat 10) :
    name_is_compatible s = false := by
  unfold name_is_compatible
  rw [matchesNAME_false_of_mem s.data c hc hbad]
  cases h0 : s.data.getLast? with
  | none => rfl
  | some c0 =>
      by_cases hc0 : c0 = Char.ofNat 10
      · subst hc0
        obtain ⟨ys, hys⟩ := List.getLast?_eq_some_iff.mp h0
        have hcys : c ∈ ys := by
          rw [hys] at hc
          rcases List.mem_append.mp hc with h | h
          · exact h
          · simp at h
            exact absurd h hnl
        have : s.data.dropLast = ys := by rw [hys]; simp
        rw [this, matchesNAME_false_of_mem ys c hcys hbad]
        simp
      · simp [Bool.or_eq_false_iff]
        intro hcon
        exact absurd (by simpa using hcon) hc0

/-! ### Lemmas about `Artifacts.read` -/

theorem readInnerLoop_isOk (blk : List (String × RawValue)) :
    ∀ ws acc, (readInnerLoop ws acc blk).isOk = blk.all (fun nv => nv.2.schemaOk) := by
  induction blk with
  | nil => intro ws acc; rfl
  | cons nv rest ih =>
      intro ws acc
      obtain ⟨n, v⟩ := nv
      cases hv : v.schemaOk
      · simp [readInnerLoop, Artifact.fromRaw, hv, Except.isOk, Except.toBool]
      · have hstep : readInnerLoop ws acc ((n, v) :: rest) =
            readInnerLoop (ws ++ check_name_format n) (dictUpdate acc n ⟨v.fields⟩) rest := by
          simp [readInnerLoop, Artifact.fromRaw, hv]
        rw [hstep, ih]
        simp [hv]

theorem readLoop_isOk (st : RepoState) (l : List (PyPath × List (String × RawValue))) :
    ∀ ws acc, (readLoop st ws acc l).isOk =
      l.all (fun e => e.2.all (fun nv => nv.2.schemaOk)) := by
  induction l with
  | nil => intro ws acc; rfl
  | cons e rest ih =>
      intro ws acc
      obtain ⟨f, blk⟩ := e
      have hblk := readInnerLoop_isOk blk [] []
      cases hb : readInnerLoop [] [] blk with
      | error err =>
          rw [hb] at hblk
          simp [readLoop, hb, Except.isOk, Except.toBool] at hblk ⊢
          simp [hblk]
      | ok pr =>
          rw [hb] at hblk
          obtain ⟨ws2, inner⟩ := pr
          have hba : blk.all (fun nv => nv.2.schemaOk) = true := by
            simpa [Except.isOk, Except.toBool] using hblk.symm
          simp [readLoop, hb, ih, hba]

/-- The inner mapping that a successful read produces for one raw block. -/
def innerVal (blk : List (String × RawValue)) : List (String × Artifact) :=
  match readInnerLoop [] [] blk with
  | .ok pr => pr.2
  | .error _ => []

theorem readLoop_ok_eq (st : RepoState) (l : List (PyPath × List (String × RawValue))) :
    ∀ ws acc w reg,
      readLoop st ws acc l = .ok (w, reg) →
      (acc.map Prod.fst ++ l.map (fun e => relpath e.1 st.root_parts)).Nodup →
      reg = acc ++ l.map (fun e => (relpath e.1 st.root_parts, innerVal e.2)) := by
  induction l with
  | nil =>
      intro ws acc w reg h _
      simp only [readLoop, Except.ok.injEq, Prod.mk.injEq] at h
      simp [← h.2]
  | cons e rest ih =>
      intro ws acc w reg h hnd
      obtain ⟨f, blk⟩ := e
      simp only [readLoop] at h
      cases hb : readInnerLoop [] [] blk with
      | error err => rw [hb] at h; simp at h
      | ok pr =>
          rw [hb] at h
          obtain ⟨ws2, inner⟩ := pr
          replace h : readLoop st (ws ++ ws2)
              (dictUpdate acc (relpath f st.root_parts) inner) rest = .ok (w, reg) := h
          simp only [List.map_cons] at hnd
          have hnotmem : relpath f st.root_parts ∉ acc.map Prod.fst := by
            rcases List.nodup_append.mp hnd with ⟨_, _, hdisj⟩
            intro hmem
            exact hdisj hmem (by simp)
          have hnone := alookup_eq_none_of_not_mem acc _ hnotmem
          have hupd := dictUpdate_of_alookup_none acc (relpath f st.root_parts) inner hnone
          rw [hupd] at h
          have hnd2 : ((acc ++ [(relpath f st.root_parts, inner)]).map Prod.fst ++
              rest.map (fun e => relpath e.1 st.root_parts)).Nodup := by
            simpa [List.append_assoc] using hnd
          have hreg := ih (ws ++ ws2) (acc ++ [(relpath f st.root_parts, inner)]) w reg h hnd2
          have hinner : innerVal blk = inner := by simp [innerVal, hb]
          rw [hreg]
          simp [hinner, List.append_assoc]

theorem alookup_map_of_nodup {ι β : Type} (l : List ι) (f : ι → String) (g : ι → β)
    (hnd : (l.map f).Nodup) (e : ι) (he : e ∈ l) :
    alookup (l.map (fun x => (f x, g x))) (f e) = some (g e) := by
  induction l with
  | nil => simp at he
  | cons x rest ih =>
      simp only [List.map_cons, List.nodup_cons] at hnd
      rcases List.mem_cons.mp he with hx | hrest
      · subst hx
        simp [alookup]
      · have hne : f x ≠ f e := by
          intro hcon
          exact hnd.1 (hcon ▸ List.mem_map_of_mem f hrest)
        simp only [List.map_cons, alookup, if_neg hne]
        exact ih hnd.2 hrest

/-! ### Lemmas about the document merge in `Artifacts.add` -/

/-- The manifest document currently stored at `p` (empty if the file is
absent, as `modify_yaml` creates absent files). -/
def docOf (st : RepoState) (p : PyPath) : YamlDoc :=
  (alookup st.files p).getD []

/-- The serialized artifact stored under `n` in the artifact block of a
manifest document, if any. -/
def artEntry (doc : YamlDoc) (n : String) : Option ArtDict :=
  match alookup doc "artifacts" with
  | some (.amap m) => alookup m n
  | _ => none

theorem addToDoc_artifacts (doc : YamlDoc) (n : String) (d : ArtDict)
    (doc2 : YamlDoc) (m : List (String × ArtDict))
    (h : addToDoc doc n d = some (doc2, m)) :
    alookup doc2 "artifacts" = some (.amap m) ∧ alookup m n = some d := by
  cases hart : alookup doc "artifacts" with
  | none =>
      simp only [addToDoc, hart, Option.some.injEq, Prod.mk.injEq] at h
      refine ⟨?_, ?_⟩
      · rw [← h.1, alookup_append_of_none doc _ _ hart, ← h.2]
        simp [alookup]
      · rw [← h.2]
        simp [dictUpdate, alookup]
  | some v =>
      cases v with
      | str s => simp [addToDoc, hart] at h
      | amap m0 =>
          simp only [addToDoc, hart, Option.some.injEq, Prod.mk.injEq] at h
          refine ⟨?_, ?_⟩
          · rw [← h.1, ← h.2, alookup_dictUpdate_self]
          · rw [← h.2, alookup_dictUpdate_self]

theorem addToDoc_frame_doc (doc : YamlDoc) (n : String) (d : ArtDict)
    (doc2 : YamlDoc) (m : List (String × ArtDict))
    (h : addToDoc doc n d = some (doc2, m)) :
    ∀ k, k ≠ "artifacts" → alookup doc2 k = alookup doc k := by
  intro k hk
  cases hart : alookup doc "artifacts" with
  | none =>
      simp only [addToDoc, hart, Option.some.injEq, Prod.mk.injEq] at h
      rw [← h.1, alookup_concat_ne doc "artifacts" k _ hk]
  | some v =>
      cases v with
      | str s => simp [addToDoc, hart] at h
      | amap m0 =>
          simp only [addToDoc, hart, Option.some.injEq, Prod.mk.injEq] at h
          rw [← h.1, alookup_dictUpdate_ne doc "artifacts" k _ hk]

theorem addToDoc_frame_entries (doc : YamlDoc) (n : String) (d : ArtDict)
    (doc2 : YamlDoc) (m : List (String × ArtDict))
    (h : addToDoc doc n d = some (doc2, m)) :
    ∀ n2, n2 ≠ n → alookup m n2 = artEntry doc n2 := by
  intro n2 hn2
  have hn2s : n ≠ n2 := Ne.symm hn2
  cases hart : alookup doc "artifacts" with
  | none =>
      simp only [addToDoc, hart, Option.some.injEq, Prod.mk.injEq] at h
      rw [← h.2]
      simp [dictUpdate, alookup, hn2s, artEntry, hart]
  | some v =>
      cases v with
      | str s => simp [addToDoc, hart] at h
      | amap m0 =>
          simp only [addToDoc, hart, Option.some.injEq, Prod.mk.injEq] at h
          rw [← h.2, alookup_dictUpdate_ne m0 n n2 d hn2]
          simp [artEntry, hart]

/-- Shape of a successful `Artifacts.add`: the name was compatible, the guard
passed, the document at the target manifest path was merged through
`addToDoc`, the updated document was written back, the original `dvcfile`
argument was handed to the staging collaborator, and the Python return value
is the lookup of the name in the updated inner mapping. -/
theorem add_ok_shape (st st2 : RepoState) (name : String) (art : Artifact)
    (f : Option PyPath) (r : Option ArtDict)
    (h : Artifacts.add st name art f = (st2, .ok r)) :
    ∃ doc2 m,
      addToDoc (docOf st (f.getD PROJECT_FILE)) name art.to_dict = some (doc2, m) ∧
      st2.files = dictUpdate st.files (f.getD PROJECT_FILE) doc2 ∧
      st2.root_parts = st.root_parts ∧
      st2.tracked = st.tracked ++ [f] ∧
      r = alookup m name ∧
      name_is_compatible name = true := by
  by_cases hn : name_is_compatible name
  · rw [Artifacts.add, if_pos hn] at h
    split at h
    · simp at h
    · split at h
      · simp at h
      · split at h
        · simp at h
        · rename_i rel hrel u hchk doc2 m hdoc
          simp only [Prod.mk.injEq, Except.ok.injEq] at h
          refine ⟨doc2, m, ?_, ?_, ?_, ?_, ?_, hn⟩
          · rw [← hdoc]; rfl
          · rw [← h.1]
          · rw [← h.1]
          · rw [← h.1]
          · exact h.2.symm
  · rw [Artifacts.add, if_neg hn] at h
    simp at h

/-! ### Concrete fixtures for witnesses and counterexamples -/

/-- A concrete artifact used by witnesses. -/
def cArt : Artifact := ⟨[("path", "model.pkl")]⟩

/-- A second concrete artifact, with a different payload. -/
def cArtB : Artifact := ⟨[("path", "model-v2.pkl")]⟩

/-- A fresh project at root `/repo` with no nested repositories. -/
def cSt : RepoState := ⟨["repo"], [], [], [], []⟩

/-- A project at root `/repo` whose subdirectory `sub` is itself a DVC
repository (it contains the project-control subdirectory). -/
def cStNested : RepoState := ⟨["repo"], [["sub"]], [], [], []⟩

/-- A relative manifest path inside the nested repository `sub`. -/
def cPathNested : PyPath := ⟨false, ["sub", "dvc.yaml"]⟩

/-- An absolute manifest path under the project root. -/
def cPathAbsIn : PyPath := ⟨true, ["repo", "dvc.yaml"]⟩

/-- An absolute manifest path outside the project root. -/
def cPathAbsOut : PyPath := ⟨true, ["other", "dvc.yaml"]⟩

/-! ### Claim C1 -/

/-- The base-name grammar exactly as the claim states it: the string fully
matches a pattern whose first and last characters are lowercase letters or
digits and whose characters are all lowercase letters, digits or hyphens
(no slash, no newline tolerance). -/
def spec_base_grammar (s : String) : Bool :=
  !s.data.isEmpty &&
    (match s.data.head?, s.data.getLast? with
      | some a, some b => isNameChar a && isNameChar b
      | _, _ => false) &&
    s.data.all (fun c => isNameChar c || c == '-')

/-- The amended base-name grammar: after stripping at most one trailing
newline, the string fully matches the pattern whose interior characters may
additionally include a slash. -/
def spec_amended_grammar (s : String) : Bool :=
  if s.data.getLast? == some (Char.ofNat 10) then nameCoreCheck s.data.dropLast
  else nameCoreCheck s.data

/-- Claim C1 counterexample: the code accepts the slash-containing name
`a/b` and the newline-terminated name `ab` + LF, both of which the claimed
grammar rejects (the slash is outside the claimed character set, and the
newline-terminated string does not fully match). -/
theorem C1_counterexample :
    name_is_compatible "a/b" = true ∧ spec_base_grammar "a/b" = false ∧
    name_is_compatible "ab\n" = true ∧ spec_base_grammar "ab\n" = false := by
  refine ⟨by decide, by decide, by decide, by decide⟩

/-- Claim C1 (amended): `name_is_compatible(s)` is true iff `s`, after
stripping at most one trailing newline, fully matches the base-name grammar
whose interior characters are lowercase letters, digits, hyphens and slashes
and whose first and last characters are lowercase letters or digits. -/
theorem C1_name_grammar (s : String) :
    name_is_compatible s = spec_amended_grammar s := by
  unfold name_is_compatible spec_amended_grammar
  cases h0 : s.data.getLast? with
  | none =>
      have hnil : s.data = [] := List.getLast?_eq_none_iff.mp h0
      simp [hnil, matchesNAME, nameCoreCheck]
  | some c0 =>
      by_cases hc0 : c0 = Char.ofNat 10
      · subst hc0
        obtain ⟨ys, hys⟩ := List.getLast?_eq_some_iff.mp h0
        have hmem : Char.ofNat 10 ∈ s.data := by rw [hys]; simp
        rw [matchesNAME_false_of_mem s.data (Char.ofNat 10) hmem (by decide)]
        simp [matchesNAME_eq_core]
      · have hbeq : (c0 == Char.ofNat 10) = false := by
          simp [hc0]
        simp [hbeq, matchesNAME_eq_core]

/-! ### Claim C2 -/

/-- Claim C2 counterexample: `add` with the namespaced name `models:churn`
(whose base portion `churn` is compatible) does not succeed; it raises
`InvalidArgument`, because the whole name is checked against the base
grammar and the separator is outside that grammar. -/
theorem C2_counterexample :
    Artifacts.add cSt "models:churn" cArt none =
      (cSt, .error (.invalidArgument (wrong_name_message "models:churn"))) := rfl

/-- Claim C2 (amended): `add` validates the full name (the namespaced
pattern is defined in the module but never consulted), so every name
containing the reserved separator is rejected with `InvalidArgument` and the
state is left unchanged, regardless of the base portion. -/
theorem C2_full_name_checked (st : RepoState) (art : Artifact)
    (f : Option PyPath) (name : String) (h : ':' ∈ name.data) :
    Artifacts.add st name art f =
      (st, .error (.invalidArgument (wrong_name_message name))) := by
  have hfalse : name_is_compatible name = false :=
    name_is_compatible_false_of_mem name ':' h (by decide) (by decide)
  rw [Artifacts.add, if_neg (by simp [hfalse])]

/-- Claim C2 witness: the amended statement applied to `models:churn`. -/
theorem C2_witness :
    ':' ∈ "models:churn".data ∧
      Artifacts.add cStNested "models:churn" cArt none =
        (cStNested, .error (.invalidArgument (wrong_name_message "models:churn"))) :=
  ⟨by decide, C2_full_name_checked cStNested cArt none "models:churn" (by decide)⟩

/-! ### Claim C5 -/

/-- Claim C5: `read` fails iff some raw artifact value in the project index
fails to deserialize into an `Artifact` record; malformed names alone never
make it fail (they only produce warnings), and since the result is a single
`Except` value, a failing read returns no partial Registry. -/
theorem C5_read_failure_iff (st : RepoState) :
    (Artifacts.read st).isOk = false ↔
      ∃ e ∈ st.index, ∃ nv ∈ e.2, nv.2.schemaOk = false := by
  rw [Artifacts.read, readLoop_isOk, ← Bool.not_eq_true]
  simp only [List.all_eq_true]
  push_neg
  constructor
  · rintro ⟨e, he, nv, hnv, hne⟩
    exact ⟨e, he, nv, hnv, by simpa using hne⟩
  · rintro ⟨e, he, nv, hnv, hfalse⟩
    exact ⟨e, he, nv, hnv, by simp [hfalse]⟩

/-! ### Claim C9 -/

/-- Claim C9: on a relative manifest path (with the well-formedness every
real path has: no empty component), the nested-repository guard raises
`InvalidArgument` iff some non-empty ancestor of the manifest — a non-empty
initial segment of the parent's components — contains the project-control
subdirectory; reaching the empty name without finding one returns without
error. -/
theorem C9_nested_guard_iff (st : RepoState) (p : PyPath)
    (hrel : p.absolute = false) (hclean : "" ∉ p.parts) :
    (∃ m, check_for_nested_dvc_repo st p = .error (.invalidArgument m)) ↔
      ∃ q, q ≠ [] ∧ startsOf q p.parts.dropLast = true ∧ isDvcRepoDir st q = true := by
  rw [check_for_nested_dvc_repo, if_neg (by simp [hrel])]
  constructor
  · rintro ⟨m, hm⟩
    exact (nestedWalk_of_err st _ _ hm).2
  · intro hex
    have hcleanl : "" ∉ p.parts.dropLast := fun hc =>
      hclean (List.mem_of_mem_dropLast hc)
    exact nestedWalk_err_of_dir st _ hcleanl hex

/-- Claim C9 witness: in a project whose subdirectory `sub` is a DVC
repository, the guard rejects the manifest path `sub/dvc.yaml`. -/
theorem C9_witness :
    ∃ m, check_for_nested_dvc_repo cStNested cPathNested =
      .error (.invalidArgument m) :=
  (C9_nested_guard_iff cStNested cPathNested rfl (by decide)).mpr
    ⟨["sub"], by decide, by decide, by decide⟩

/-! ### Claim C10 -/

/-- Claim C10: `add` with a compatible name and an absolute manifest path
that is not under the project root fails with the unwrapped `ValueError` of
`relative_to` — not with `InvalidArgument` — and the state is unchanged. -/
theorem C10_outside_root_valueerror (st : RepoState) (name : String)
    (art : Artifact) (p : PyPath) (habs : p.absolute = true)
    (hout : startsOf st.root_parts p.parts = false)
    (hname : name_is_compatible name = true) :
    Artifacts.add st name art (some p) =
      (st, .error (.valueError relative_to_message)) := by
  have hfail : PyPath.relative_to p ⟨true, st.root_parts⟩ =
      .error (.valueError relative_to_message) := by
    rw [PyPath.relative_to, if_neg]
    simp [hout]
  rw [Artifacts.add, if_pos hname]
  simp only [Option.getD_some, habs, if_true, hfail]

/-- Claim C10 witness: adding to the absolute path `/other/dvc.yaml` in the
project rooted at `/repo` propagates `ValueError`. -/
theorem C10_witness :
    Artifacts.add cSt "model" cArt (some cPathAbsOut) =
      (cSt, .error (.valueError relative_to_message)) :=
  C10_outside_root_valueerror cSt "model" cArt cPathAbsOut rfl (by decide) (by decide)

/-! ### Claim C3 -/

/-- Claim C3 counterexample: `add` with the absolute path `/repo/dvc.yaml`
in the project rooted at `/repo` does not raise `InvalidArgument`; it
succeeds and writes the manifest file. -/
theorem C3_counterexample :
    (Artifacts.add cSt "model" cArt (some cPathAbsIn)).2 = .ok (some cArt.to_dict) ∧
    (Artifacts.add cSt "model" cArt (some cPathAbsIn)).1.files ≠ cSt.files := by
  exact ⟨rfl, by decide⟩

/-- Evaluation of `Artifacts.add` on an absolute path under the project root
once the name check, the relative conversion and the nested-repository guard
have all passed. -/
theorem add_unfold_after_guard (st : RepoState) (name : String) (art : Artifact)
    (p : PyPath) (rel : PyPath)
    (hname : name_is_compatible name = true)
    (habs : p.absolute = true)
    (hrel : p.relative_to ⟨true, st.root_parts⟩ = .ok rel)
    (hchk : check_for_nested_dvc_repo st rel = .ok ()) :
    Artifacts.add st name art (some p) =
      match addToDoc (docOf st p) name art.to_dict with
      | none => (st, .error .attributeError)
      | some (doc2, m) =>
          ({ st with
              files := dictUpdate st.files p doc2,
              tracked := st.tracked ++ [some p] },
           .ok (alookup m name)) := by
  rw [Artifacts.add, if_pos hname]
  simp only [Option.getD_some, habs, if_true, hrel, hchk, docOf]

/-- Claim C3 (amended): an absolute manifest path is not rejected for being
absolute.  It is converted to a root-relative path before the
nested-repository guard, so with a compatible name, an absolute path under
the project root and no nested repository above the manifest, `add` never
raises `InvalidArgument` (it proceeds to the write; only a path outside the
root fails, with the unwrapped `ValueError`). -/
theorem C3_absolute_under_root (st : RepoState) (name : String) (art : Artifact)
    (p : PyPath) (habs : p.absolute = true)
    (hin : startsOf st.root_parts p.parts = true)
    (hnodvc : ¬∃ q, q ≠ [] ∧
      startsOf q ((p.parts.drop st.root_parts.length).dropLast) = true ∧
      isDvcRepoDir st q = true)
    (hname : name_is_compatible name = true) :
    ∀ m, (Artifacts.add st name art (some p)).2 ≠ .error (.invalidArgument m) := by
  have hrelok : p.relative_to ⟨true, st.root_parts⟩ =
      .ok ⟨false, p.parts.drop st.root_parts.length⟩ := by
    rw [PyPath.relative_to, if_pos]
    simp [habs, hin]
  have hwalk : nestedWalk st ((p.parts.drop st.root_parts.length).dropLast) = .ok () := by
    rcases nestedWalk_ok_or_err st ((p.parts.drop st.root_parts.length).dropLast) with
      hok | ⟨e, herr⟩
    · exact hok
    · exact absurd (nestedWalk_of_err st _ e herr).2 hnodvc
  have hchk : check_for_nested_dvc_repo st
      ⟨false, p.parts.drop st.root_parts.length⟩ = .ok () := by
    rw [check_for_nested_dvc_repo, if_neg]
    · exact hwalk
    · simp
  intro m hcon
  rw [add_unfold_after_guard st name art p _ hname habs hrelok hchk] at hcon
  cases hdoc : addToDoc (docOf st p) name art.to_dict with
  | none => rw [hdoc] at hcon; simp at hcon
  | some pr =>
      obtain ⟨doc2, m2⟩ := pr
      rw [hdoc] at hcon
      simp at hcon

/-- Claim C3 witness: the amended statement applied to `/repo/dvc.yaml` in
the fresh project rooted at `/repo`: the result is not the absolute-path
rejection. -/
theorem C3_witness :
    (Artifacts.add cSt "model" cArt (some cPathAbsIn)).2 ≠
      .error (.invalidArgument "Use relative path to dvc.yaml.") :=
  C3_absolute_under_root cSt "model" cArt cPathAbsIn rfl (by decide)
    (by
      rintro ⟨q, _, _, hdir⟩
      simp [isDvcRepoDir, cSt] at hdir)
    (by decide) "Use relative path to dvc.yaml."

/-! ### Claim C4 -/

/-- Claim C4: with a compatible name and a relative manifest path that has a
nested DVC repository among the ancestors strictly between the project root
and the manifest's parent (the parent included), `add` raises
`InvalidArgument` and returns the state unchanged — in particular the target
manifest file's contents are untouched, as the failure happens before the
write session. -/
theorem C4_nested_rejected (st : RepoState) (name : String) (art : Artifact)
    (p : PyPath) (hrel : p.absolute = false) (hclean : "" ∉ p.parts)
    (hex : ∃ q, q ≠ [] ∧ startsOf q p.parts.dropLast = true ∧
      isDvcRepoDir st q = true)
    (hname : name_is_compatible name = true) :
    ∃ m, Artifacts.add st name art (some p) =
      (st, .error (.invalidArgument m)) := by
  have hcleanl : "" ∉ p.parts.dropLast := fun hc =>
    hclean (List.mem_of_mem_dropLast hc)
  obtain ⟨m, hm⟩ := nestedWalk_err_of_dir st _ hcleanl hex
  have hchk : check_for_nested_dvc_repo st p = .error (.invalidArgument m) := by
    rw [check_for_nested_dvc_repo, if_neg]
    · exact hm
    · simp [hrel]
  refine ⟨m, ?_⟩
  rw [Artifacts.add, if_pos hname]
  simp only [Option.getD_some, hrel, Bool.false_eq_true, if_false, hchk]

/-- Claim C4 witness: adding to `sub/dvc.yaml` where `sub` is a nested DVC
repository is rejected and the state is unchanged. -/
theorem C4_witness :
    ∃ m, Artifacts.add cStNested "model" cArt (some cPathNested) =
      (cStNested, .error (.invalidArgument m)) :=
  C4_nested_rejected cStNested "model" cArt cPathNested rfl (by decide)
    ⟨["sub"], by decide, by decide, by decide⟩ (by decide)

/-! ### Claim C6 -/

/-- Claim C6: a successful `read` returns a Registry with exactly one key
per manifest entry of the project index — the manifest path relative to the
project root, in index order — and a manifest whose artifact block is empty
appears with an empty inner mapping rather than being omitted.  (The
distinctness hypothesis holds for every real index, whose entries are keyed
by distinct paths.) -/
theorem C6_read_registry (st : RepoState) (w : List String) (reg : Registry)
    (hok : Artifacts.read st = .ok (w, reg))
    (hnd : (st.index.map (fun e => relpath e.1 st.root_parts)).Nodup) :
    reg.map Prod.fst = st.index.map (fun e => relpath e.1 st.root_parts) ∧
    ∀ e ∈ st.index, e.2 = [] →
      alookup reg (relpath e.1 st.root_parts) = some [] := by
  have hr := readLoop_ok_eq st st.index [] [] w reg hok (by simpa using hnd)
  simp only [List.nil_append] at hr
  constructor
  · rw [hr]
    simp [List.map_map, Function.comp]
  · intro e he hblk
    rw [hr]
    have hl := alookup_map_of_nodup st.index (fun e => relpath e.1 st.root_parts)
      (fun e => innerVal e.2) hnd e he
    simp only [hblk] at hl
    exact hl

/-- A project index with one empty artifact block and one singleton block. -/
def cSt6 : RepoState :=
  ⟨["repo"], [], [],
    [(⟨true, ["repo", "dvc.yaml"]⟩, []),
     (⟨true, ["repo", "sub", "dvc.yaml"]⟩, [("m", ⟨[("path", "x")], true⟩)])],
    []⟩

/-- The Registry that `read` produces on `cSt6`. -/
def cReg6 : Registry :=
  [("dvc.yaml", []), ("sub/dvc.yaml", [("m", ⟨[("path", "x")]⟩)])]

/-- Claim C6 witness: on a concrete index, the Registry keys are the two
root-relative manifest paths and the empty block is present as an empty
inner mapping. -/
theorem C6_witness :
    cReg6.map Prod.fst = cSt6.index.map (fun e => relpath e.1 cSt6.root_parts) ∧
    alookup cReg6 (relpath ⟨true, ["repo", "dvc.yaml"]⟩ cSt6.root_parts) = some [] := by
  have h := C6_read_registry cSt6 [] cReg6 rfl (by decide)
  exact ⟨h.1, h.2 (⟨true, ["repo", "dvc.yaml"]⟩, []) (by decide) rfl⟩

/-! ### Claim C7 -/

/-- Claim C7: two successful `add` calls with the same name but different
payloads on the same manifest leave the second payload under that name
(upsert semantics), the returned value of the second call is the second
serialized payload, and both calls leave every document key other than the
artifact block — and every artifact entry other than the written name —
unchanged. -/
theorem C7_upsert_frame (st st1 st2 : RepoState) (name : String)
    (a1 a2 : Artifact) (f : Option PyPath) (r1 r2 : Option ArtDict) (p : PyPath)
    (hp : p = f.getD PROJECT_FILE)
    (h1 : Artifacts.add st name a1 f = (st1, .ok r1))
    (h2 : Artifacts.add st1 name a2 f = (st2, .ok r2)) :
    artEntry (docOf st2 p) name = some a2.to_dict ∧
    r2 = some a2.to_dict ∧
    (∀ k, k ≠ "artifacts" → alookup (docOf st2 p) k = alookup (docOf st p) k) ∧
    (∀ n2, n2 ≠ name → artEntry (docOf st2 p) n2 = artEntry (docOf st p) n2) := by
  subst hp
  obtain ⟨d1, m1, hdoc1, hf1, _, _, hr1, _⟩ := add_ok_shape st st1 name a1 f r1 h1
  obtain ⟨d2, m2, hdoc2, hf2, _, _, hr2, _⟩ := add_ok_shape st1 st2 name a2 f r2 h2
  have hdoc1st1 : docOf st1 (f.getD PROJECT_FILE) = d1 := by
    rw [docOf, hf1, alookup_dictUpdate_self]
    rfl
  have hdoc2st2 : docOf st2 (f.getD PROJECT_FILE) = d2 := by
    rw [docOf, hf2, alookup_dictUpdate_self]
    rfl
  rw [hdoc1st1] at hdoc2
  obtain ⟨hart1, hm1⟩ := addToDoc_artifacts _ _ _ _ _ hdoc1
  obtain ⟨hart2, hm2⟩ := addToDoc_artifacts _ _ _ _ _ hdoc2
  refine ⟨?_, ?_, ?_, ?_⟩
  · rw [hdoc2st2]
    simp [artEntry, hart2, hm2]
  · rw [hr2, hm2]
  · intro k hk
    rw [hdoc2st2, addToDoc_frame_doc _ _ _ _ _ hdoc2 k hk,
      addToDoc_frame_doc _ _ _ _ _ hdoc1 k hk]
  · intro n2 hn2
    have hA : artEntry d2 n2 = alookup m2 n2 := by simp [artEntry, hart2]
    have hB : artEntry d1 n2 = alookup m1 n2 := by simp [artEntry, hart1]
    rw [hdoc2st2, hA, addToDoc_frame_entries _ _ _ _ _ hdoc2 n2 hn2, hB,
      addToDoc_frame_entries _ _ _ _ _ hdoc1 n2 hn2]

/-- A project whose top-level manifest already holds an unrelated key. -/
def cSt7 : RepoState :=
  ⟨["repo"], [], [(PROJECT_FILE, [("stages", .str "prepare")])], [], []⟩

/-- The state after the first concrete `add`. -/
def cSt7a : RepoState := (Artifacts.add cSt7 "model" cArt none).1

/-- The state after the second concrete `add` with the same name. -/
def cSt7b : RepoState := (Artifacts.add cSt7a "model" cArtB none).1

/-- Claim C7 witness: after two concrete upserts the second payload is the
stored one and the pre-existing `stages` key is untouched. -/
theorem C7_witness :
    artEntry (docOf cSt7b PROJECT_FILE) "model" = some cArtB.to_dict ∧
    alookup (docOf cSt7b PROJECT_FILE) "stages" =
      alookup (docOf cSt7 PROJECT_FILE) "stages" := by
  have h := C7_upsert_frame cSt7 cSt7a cSt7b "model" cArt cArtB none
    (some cArt.to_dict) (some cArtB.to_dict) PROJECT_FILE rfl rfl rfl
  exact ⟨h.1, h.2.2.1 "stages" (by decide)⟩

/-! ### Claim C8 -/

/-- Claim C8 (code bug): after a successful `add` with the manifest argument
omitted, the staging collaborator is handed the raw argument `None` — not
the default manifest file that was actually written.  The written file is
the top-level manifest, yet the tracked list records `none` instead of it. -/
theorem C8_track_file_argument :
    (Artifacts.add cSt "model" cArt none).2 = .ok (some cArt.to_dict) ∧
    (Artifacts.add cSt "model" cArt none).1.files =
      [(PROJECT_FILE, [("artifacts", .amap [("model", cArt.to_dict)])])] ∧
    (Artifacts.add cSt "model" cArt none).1.tracked = [none] ∧
    (Artifacts.add cSt "model" cArt none).1.tracked ≠ [some PROJECT_FILE] := by
  refine ⟨rfl, rfl, rfl, by decide⟩
